import Mathlib

/-!
# Verification of the `VotingProcess` registry contract

A shallow embedding of `contracts/VotingProcess.sol` (the Solidity 0.6
version of the contract).  Addresses are modelled as `Nat` (`0` is the
zero address), `uint8`/`uint16`/`uint32`/`uint64`/`uint256` values as
`Nat` (overflow is made explicit where the source checks it, via the
SafeAdd library), `bytes32` process identifiers as the tuple that the
source hashes with keccak256 (keccak is collision resistant, so the
embedding idealises it as the injective constructor of that tuple, and
`equalStrings`, which compares keccak hashes of strings, as string
equality), and reverting functions as `Except String` values carrying
the source's revert reason.
-/

set_option linter.unusedVariables false

namespace VotingProcess

/-- An Ethereum address; `0` models `address(0x0)`. -/
abbrev Address := Nat

/-- The contract's status enumeration: OPEN, ENDED, CANCELED, PAUSED. -/
inductive Status where
  | OPEN
  | ENDED
  | CANCELED
  | PAUSED
deriving DecidableEq, Repr

/-- The `uint8` value of a `Status`, as produced by Solidity's `uint8(Status.X)` cast. -/
def statusToNat : Status → Nat
  | .OPEN => 0
  | .ENDED => 1
  | .CANCELED => 2
  | .PAUSED => 3

/-- Solidity's `Status(n)` cast: defined for `n ≤ 3`, reverts otherwise. -/
def statusOfNat : Nat → Option Status
  | 0 => some .OPEN
  | 1 => some .ENDED
  | 2 => some .CANCELED
  | 3 => some .PAUSED
  | _ => none

-- Process Mode flags
def MODE_AUTO_START : Nat := 1 <<< 0
def MODE_INTERRUPTIBLE : Nat := 1 <<< 1
def MODE_DYNAMIC_CENSUS : Nat := 1 <<< 2
def MODE_ALLOW_VOTE_OVERWRITE : Nat := 1 <<< 3
def MODE_ENCRYPTED_METADATA : Nat := 1 <<< 4

-- Envelope Type flags
def ENV_TYPE_SERIAL : Nat := 1 <<< 0
def ENV_TYPE_ANONYMOUS : Nat := 1 <<< 1
def ENV_TYPE_ENCRYPTED_VOTE : Nat := 1 <<< 2

/-- The `struct Process` of the contract.  `namespace` is a Lean keyword, so that
field is called `nspace` here. -/
structure Process where
  mode : Nat
  envelopeType : Nat
  entityAddress : Address
  startBlock : Nat
  blockCount : Nat
  metadata : String
  censusMerkleRoot : String
  censusMerkleTree : String
  status : Status
  questionIndex : Nat
  questionCount : Nat
  maxValue : Nat
  uniqueValues : Bool
  maxTotalCost : Nat
  costExponent : Nat
  maxVoteOverwrites : Nat
  paramsSignature : Nat
  nspace : Nat
  results : String
deriving DecidableEq, Repr

/-- A `bytes32` process identifier: the source computes
`keccak256(abi.encodePacked(entityAddress, processCountIndex, genesis, chainId))`;
since keccak is collision resistant the embedding keeps the hashed tuple itself. -/
structure ProcessId where
  entityAddress : Address
  processCountIndex : Nat
  genesis : String
  chainId : Nat
deriving DecidableEq, Repr

/-- The contract storage: global data plus the per-process data.
Solidity mappings are total functions defaulting to `0`. -/
structure ContractState where
  contractOwner : Address
  validators : List String
  oracles : List Address
  genesis : String
  chainId : Nat
  processes : List Process
  processesIndex : ProcessId → Nat
  entityProcessCount : Address → Nat

/-- Solidity array access `a[i]`: reverts when the index is out of bounds. -/
def arrGet (l : List Process) (i : Nat) : Except String Process :=
  match l[i]? with
  | some p => .ok p
  | none => .error "Index out of bounds"

/-- Storage after overwriting the record at index `i` (Solidity's
`processes[i] = p`); everything but the process array is untouched. -/
def setProcess (s : ContractState) (i : Nat) (p : Process) : ContractState :=
  { s with processes := s.processes.set i p }

-- HELPERS

def getEntityProcessCount (s : ContractState) (entityAddress : Address) : Nat :=
  s.entityProcessCount entityAddress

def getProcessId (s : ContractState) (entityAddress : Address) (processCountIndex : Nat) :
    ProcessId :=
  ⟨entityAddress, processCountIndex, s.genesis, s.chainId⟩

def getNextProcessId (s : ContractState) (entityAddress : Address) : ProcessId :=
  getProcessId s entityAddress (getEntityProcessCount s entityAddress)

def getProcessIndex (s : ContractState) (processId : ProcessId) : Nat :=
  s.processesIndex processId

/-- Source `equalStrings` compares keccak hashes of the two strings; with keccak
idealised as injective this is string equality. -/
def equalStrings (str1 str2 : String) : Bool :=
  str1 == str2

def isValidator (s : ContractState) (validatorPublicKey : String) : Bool :=
  s.validators.any fun v => equalStrings v validatorPublicKey

def isOracle (s : ContractState) (oracleAddress : Address) : Bool :=
  s.oracles.any fun o => o == oracleAddress

/-- Modelled from the spec: the repository imports `./math/SafeAdd.sol`
(not present under the sources), whose `add8` is the standard checked
`uint8` addition: it reverts instead of wrapping past 255. -/
def add8 (a b : Nat) : Except String Nat :=
  if a + b ≤ 255 then .ok (a + b) else .error "uint8 overflow"

-- GLOBAL METHODS

/-- The `constructor`: records the deployer and chain id and pushes the
empty sentinel record at index 0. -/
def emptyProcess : Process :=
  { mode := 0, envelopeType := 0, entityAddress := 0, startBlock := 0, blockCount := 0,
    metadata := "", censusMerkleRoot := "", censusMerkleTree := "", status := .CANCELED,
    questionIndex := 0, questionCount := 0, maxValue := 0, uniqueValues := false,
    maxTotalCost := 0, costExponent := 0, maxVoteOverwrites := 0, paramsSignature := 0,
    nspace := 0, results := "" }

def constructorState (sender : Address) (chainIdValue : Nat) : ContractState :=
  { contractOwner := sender, validators := [], oracles := [], genesis := "",
    chainId := chainIdValue, processes := [emptyProcess],
    processesIndex := fun _ => 0, entityProcessCount := fun _ => 0 }

def setGenesis (s : ContractState) (sender : Address) (newValue : String) :
    Except String ContractState :=
  if sender ≠ s.contractOwner then .error "Only contract owner"
  else if equalStrings s.genesis newValue then .error "Genesis is the same"
  else .ok { s with genesis := newValue }

def getGenesis (s : ContractState) : String :=
  s.genesis

def setChainId (s : ContractState) (sender : Address) (newValue : Nat) :
    Except String ContractState :=
  if sender ≠ s.contractOwner then .error "Only contract owner"
  else if s.chainId = newValue then .error "chainId is the same"
  else .ok { s with chainId := newValue }

def getChainId (s : ContractState) : Nat :=
  s.chainId

def addValidator (s : ContractState) (sender : Address) (validatorPublicKey : String) :
    Except String ContractState :=
  if sender ≠ s.contractOwner then .error "Only contract owner"
  else if isValidator s validatorPublicKey then .error "Validator already exists"
  else .ok { s with validators := s.validators ++ [validatorPublicKey] }

def removeValidator (s : ContractState) (sender : Address) (idx : Nat)
    (validatorPublicKey : String) : Except String ContractState :=
  if sender ≠ s.contractOwner then .error "Only contract owner"
  else match s.validators[idx]? with
  | none => .error "Index out of bounds"
  | some v =>
    if ¬ equalStrings v validatorPublicKey then
      .error "Validator to remove does not match index"
    else match s.validators.getLast? with
    | none => .error "Index out of bounds"
    | some last => .ok { s with validators := (s.validators.set idx last).dropLast }

def getValidators (s : ContractState) : List String :=
  s.validators

def addOracle (s : ContractState) (sender : Address) (oracleAddress : Address) :
    Except String ContractState :=
  if sender ≠ s.contractOwner then .error "Only contract owner"
  else if isOracle s oracleAddress then .error "Oracle already exists"
  else .ok { s with oracles := s.oracles ++ [oracleAddress] }

def removeOracle (s : ContractState) (sender : Address) (idx : Nat) (oracleAddress : Address) :
    Except String ContractState :=
  if sender ≠ s.contractOwner then .error "Only contract owner"
  else if ¬ (idx < s.oracles.length) then .error "Invalid index"
  else match s.oracles[idx]? with
  | none => .error "Index out of bounds"
  | some o =>
    if o ≠ oracleAddress then .error "Oracle to remove does not match index"
    else match s.oracles.getLast? with
    | none => .error "Index out of bounds"
    | some last => .ok { s with oracles := (s.oracles.set idx last).dropLast }

def getOracles (s : ContractState) : List Address :=
  s.oracles

-- ENTITY METHODS

def create (s : ContractState) (sender : Address) (mode envelopeType : Nat)
    (metadata merkleRoot merkleTree : String)
    (startBlock blockCount questionCount maxValue : Nat) (uniqueValues : Bool)
    (maxTotalCost costExponent maxVoteOverwrites : Nat)
    (paramsSignature : Nat) (nspace : Nat) : Except String ContractState :=
  if ¬ (0 < metadata.length) then .error "Empty metadata"
  else if ¬ (0 < merkleRoot.length) then .error "Empty merkleRoot"
  else if ¬ (0 < merkleTree.length) then .error "Empty merkleTree"
  else if ¬ (0 < questionCount) then .error "Empty questionCount"
  else if ¬ (0 < maxValue) then .error "Empty maxValue"
  else if mode &&& MODE_AUTO_START ≠ 0 ∧ ¬ (0 < startBlock) then
    .error "AUTO_START requires startBlock > 0"
  else
    let processId := getNextProcessId s sender
    -- by default status is OPEN; auto-start processes begin PAUSED
    let status : Status := if mode &&& MODE_AUTO_START ≠ 0 then .PAUSED else .OPEN
    let process : Process :=
      { mode := mode, envelopeType := envelopeType, entityAddress := sender,
        startBlock := startBlock, blockCount := blockCount, metadata := metadata,
        censusMerkleRoot := merkleRoot, censusMerkleTree := merkleTree, status := status,
        questionIndex := 0, questionCount := questionCount, maxValue := maxValue,
        uniqueValues := uniqueValues, maxTotalCost := maxTotalCost,
        costExponent := costExponent, maxVoteOverwrites := maxVoteOverwrites,
        paramsSignature := paramsSignature, nspace := nspace, results := "" }
    .ok { s with
      processesIndex := fun pid =>
        if pid = processId then s.processes.length else s.processesIndex pid,
      processes := s.processes ++ [process],
      entityProcessCount := fun a =>
        if a = sender then s.entityProcessCount a + 1 else s.entityProcessCount a }

/-- The 18 values returned by `get` (all fields of the record except `results`). -/
structure GetView where
  mode : Nat
  envelopeType : Nat
  entityAddress : Address
  startBlock : Nat
  blockCount : Nat
  metadata : String
  censusMerkleRoot : String
  censusMerkleTree : String
  status : Nat
  questionIndex : Nat
  questionCount : Nat
  maxValue : Nat
  uniqueValues : Bool
  maxTotalCost : Nat
  costExponent : Nat
  maxVoteOverwrites : Nat
  paramsSignature : Nat
  nspace : Nat
deriving DecidableEq, Repr

def get (s : ContractState) (processId : ProcessId) : Except String GetView :=
  if ¬ (0 < getProcessIndex s processId) then .error "Process not found"
  else match arrGet s.processes (getProcessIndex s processId) with
  | .error e => .error e
  | .ok entry =>
    .ok { mode := entry.mode, envelopeType := entry.envelopeType,
          entityAddress := entry.entityAddress, startBlock := entry.startBlock,
          blockCount := entry.blockCount, metadata := entry.metadata,
          censusMerkleRoot := entry.censusMerkleRoot,
          censusMerkleTree := entry.censusMerkleTree,
          status := statusToNat entry.status, questionIndex := entry.questionIndex,
          questionCount := entry.questionCount, maxValue := entry.maxValue,
          uniqueValues := entry.uniqueValues, maxTotalCost := entry.maxTotalCost,
          costExponent := entry.costExponent, maxVoteOverwrites := entry.maxVoteOverwrites,
          paramsSignature := entry.paramsSignature, nspace := entry.nspace }

/-- The `if / else if` ladder of `setStatus` that validates the requested
transition against the current status. -/
def statusTransitionCheck (current : Status) (newStatus : Nat) : Except String Unit :=
  if newStatus = statusToNat .OPEN then
    if current = .PAUSED then .ok () else .error "Process not paused"
  else if newStatus = statusToNat .ENDED ∨ newStatus = statusToNat .CANCELED then
    if current = .OPEN ∨ current = .PAUSED then .ok ()
    else .error "Already ended or canceled"
  else if newStatus = statusToNat .PAUSED then
    if current = .OPEN then .ok () else .error "Process not open"
  else .ok ()

def setStatus (s : ContractState) (sender : Address) (processId : ProcessId)
    (newStatus : Nat) : Except String ContractState :=
  match arrGet s.processes (getProcessIndex s processId) with
  | .error e => .error e
  | .ok entry =>
    -- modifier onlyEntity(processId)
    if entry.entityAddress ≠ sender then .error "Invalid entity"
    else if ¬ (statusToNat .OPEN ≤ newStatus ∧ newStatus ≤ statusToNat .PAUSED) then
      .error "Invalid status code"
    else if entry.mode &&& MODE_INTERRUPTIBLE = 0 then .error "Process not interruptible"
    else match statusTransitionCheck entry.status newStatus with
    | .error e => .error e
    | .ok _ =>
      match statusOfNat newStatus with
      | none => .error "Invalid status code"
      | some st =>
        let updated : Process := { entry with status := st }
        .ok { s with processes := s.processes.set (getProcessIndex s processId) updated }

def incrementQuestionIndex (s : ContractState) (sender : Address) (processId : ProcessId) :
    Except String ContractState :=
  match arrGet s.processes (getProcessIndex s processId) with
  | .error e => .error e
  | .ok entry =>
    -- modifier onlyEntity(processId)
    if entry.entityAddress ≠ sender then .error "Invalid entity"
    else if ¬ (entry.status = .OPEN ∨ entry.status = .PAUSED) then .error "Process not active"
    else if entry.envelopeType &&& ENV_TYPE_SERIAL = 0 then .error "Process is not SERIAL"
    else match add8 entry.questionIndex 1 with
    | .error e => .error e
    | .ok nextIdx =>
      if nextIdx < entry.questionCount then
        let updated : Process := { entry with questionIndex := nextIdx }
        .ok { s with processes := s.processes.set (getProcessIndex s processId) updated }
      else
        -- End the process if already at the last questionIndex
        setStatus s sender processId (statusToNat .ENDED)

def setCensus (s : ContractState) (sender : Address) (processId : ProcessId)
    (censusMerkleRoot censusMerkleTree : String) : Except String ContractState :=
  match arrGet s.processes (getProcessIndex s processId) with
  | .error e => .error e
  | .ok entry =>
    -- modifier onlyEntity(processId)
    if entry.entityAddress ≠ sender then .error "Invalid entity"
    else if ¬ (0 < censusMerkleRoot.length) then .error "Empty Merkle Root"
    else if ¬ (0 < censusMerkleTree.length) then .error "Empty Merkle Tree"
    else if ¬ (entry.status = .OPEN ∨ entry.status = .PAUSED) then .error "Process not active"
    else if entry.mode &&& MODE_DYNAMIC_CENSUS = 0 then .error "Read-only census"
    else
      let updated : Process := { entry with censusMerkleRoot := censusMerkleRoot,
                                            censusMerkleTree := censusMerkleTree }
      .ok { s with processes := s.processes.set (getProcessIndex s processId) updated }

def setResults (s : ContractState) (sender : Address) (processId : ProcessId)
    (results : String) : Except String ContractState :=
  -- modifier onlyOracle
  if ¬ isOracle s sender then .error "unauthorized"
  else if ¬ (0 < results.length) then .error "Empty results"
  else if ¬ (0 < getProcessIndex s processId) then .error "Process not found"
  else match arrGet s.processes (getProcessIndex s processId) with
  | .error e => .error e
  | .ok entry =>
    if entry.entityAddress = 0 then .error "Empty process"
    else if entry.status = .CANCELED then .error "Process is canceled"
    else if entry.results.length ≠ 0 then .error "Results already set"
    else
      let updated : Process := { entry with results := results }
      .ok { s with processes := s.processes.set (getProcessIndex s processId) updated }

def getResults (s : ContractState) (processId : ProcessId) : Except String String :=
  if ¬ (0 < getProcessIndex s processId) then .error "Process not found"
  else match arrGet s.processes (getProcessIndex s processId) with
  | .error e => .error e
  | .ok entry => .ok entry.results

/-! ## Spec-side definitions, the step relation, and example storage -/

/-- The table of transitions claimed by the spec (§4.1):
PAUSED→OPEN, OPEN→PAUSED, OPEN→ENDED, PAUSED→ENDED, OPEN→CANCELED, PAUSED→CANCELED.
This definition transcribes the spec's words; it is compared against the
contract's own transition checks below. -/
def specStatusTransition (current : Status) (requested : Nat) : Prop :=
  (current = .PAUSED ∧ requested = statusToNat .OPEN) ∨
  (current = .OPEN ∧ requested = statusToNat .PAUSED) ∨
  (current = .OPEN ∧ requested = statusToNat .ENDED) ∨
  (current = .PAUSED ∧ requested = statusToNat .ENDED) ∨
  (current = .OPEN ∧ requested = statusToNat .CANCELED) ∨
  (current = .PAUSED ∧ requested = statusToNat .CANCELED)

instance (current : Status) (requested : Nat) :
    Decidable (specStatusTransition current requested) := by
  unfold specStatusTransition
  infer_instance

instance {ε α : Type _} [DecidableEq ε] [DecidableEq α] : DecidableEq (Except ε α) :=
  fun a b =>
  match a, b with
  | .ok x, .ok y =>
    if h : x = y then .isTrue (by rw [h])
    else .isFalse (by intro hc; cases hc; exact h rfl)
  | .error x, .error y =>
    if h : x = y then .isTrue (by rw [h])
    else .isFalse (by intro hc; cases hc; exact h rfl)
  | .ok _, .error _ => .isFalse (by intro hc; cases hc)
  | .error _, .ok _ => .isFalse (by intro hc; cases hc)

/-- One successful public mutating call of the contract. -/
inductive Step : ContractState → ContractState → Prop where
  | ofSetGenesis {s sender v s'} (h : setGenesis s sender v = .ok s') : Step s s'
  | ofSetChainId {s sender v s'} (h : setChainId s sender v = .ok s') : Step s s'
  | ofAddValidator {s sender v s'} (h : addValidator s sender v = .ok s') : Step s s'
  | ofRemoveValidator {s sender idx v s'}
      (h : removeValidator s sender idx v = .ok s') : Step s s'
  | ofAddOracle {s sender a s'} (h : addOracle s sender a = .ok s') : Step s s'
  | ofRemoveOracle {s sender idx a s'}
      (h : removeOracle s sender idx a = .ok s') : Step s s'
  | ofCreate {s sender mode envT md mr mt sb bc qc mv uv mtc ce mvo ps nsp s'}
      (h : create s sender mode envT md mr mt sb bc qc mv uv mtc ce mvo ps nsp = .ok s') :
      Step s s'
  | ofSetStatus {s sender pid ns s'} (h : setStatus s sender pid ns = .ok s') : Step s s'
  | ofIncrementQuestionIndex {s sender pid s'}
      (h : incrementQuestionIndex s sender pid = .ok s') : Step s s'
  | ofSetCensus {s sender pid r t s'} (h : setCensus s sender pid r t = .ok s') : Step s s'
  | ofSetResults {s sender pid r s'} (h : setResults s sender pid r = .ok s') : Step s s'

/-- The storage states the deployed contract can actually be in: the
constructor's state followed by any number of successful calls. -/
inductive Reachable : ContractState → Prop where
  | init (sender : Address) (chainIdValue : Nat) : Reachable (constructorState sender chainIdValue)
  | step {s s'} (hs : Reachable s) (h : Step s s') : Reachable s'

/-- The storage invariant: the sentinel sits at index 0, the id map points
into the process array, and every real record keeps `questionIndex`
strictly below `questionCount`. -/
def Inv (s : ContractState) : Prop :=
  s.processes[0]? = some emptyProcess ∧
  (∀ pid, getProcessIndex s pid < s.processes.length) ∧
  (∀ i p, s.processes[i]? = some p → 1 ≤ i → p.questionIndex < p.questionCount)

/-- Example storage for witnesses: a contract owned by address 7 on chain 1,
with oracle 9 and one real process at index 1, created by entity 5:
interruptible + dynamic census, serial envelope, OPEN, two questions. -/
def exProcA : Process :=
  { emptyProcess with
    mode := MODE_INTERRUPTIBLE + MODE_DYNAMIC_CENSUS, envelopeType := ENV_TYPE_SERIAL,
    entityAddress := 5, metadata := "meta", censusMerkleRoot := "root",
    censusMerkleTree := "tree", status := .OPEN, questionCount := 2, maxValue := 1 }

def exPidA : ProcessId := ⟨5, 0, "", 1⟩

def exStateA : ContractState :=
  { contractOwner := 7, validators := ["v1"], oracles := [9], genesis := "", chainId := 1,
    processes := [emptyProcess, exProcA],
    processesIndex := fun pid => if pid = exPidA then 1 else 0,
    entityProcessCount := fun a => if a = 5 then 1 else 0 }

/-- Counterexample storage: like `exStateA` but the process is NOT
interruptible (mode has only the dynamic-census flag) and has a single
question, so the overflow path of `incrementQuestionIndex` is reached. -/
def exProcB : Process :=
  { emptyProcess with
    mode := MODE_DYNAMIC_CENSUS, envelopeType := ENV_TYPE_SERIAL, entityAddress := 5,
    metadata := "meta", censusMerkleRoot := "root", censusMerkleTree := "tree",
    status := .OPEN, questionCount := 1, maxValue := 1 }

def exStateB : ContractState :=
  { contractOwner := 7, validators := [], oracles := [9], genesis := "", chainId := 1,
    processes := [emptyProcess, exProcB],
    processesIndex := fun pid => if pid = exPidA then 1 else 0,
    entityProcessCount := fun a => if a = 5 then 1 else 0 }

/-- Example storage with three oracles [11, 22, 33] and three validators,
for the swap-removal witnesses. -/
def exStateC : ContractState :=
  { exStateA with oracles := [11, 22, 33], validators := ["A", "B", "C"] }

/-- The storage reached from a fresh deployment by one successful `create`
call of entity 5 (serial envelope, two questions). -/
def exStateD : ContractState :=
  (create (constructorState 7 1) 5 0 1 "m" "r" "t" 0 0 2 1 false 0 0 0 0
    0).toOption.getD (constructorState 7 1)

/-- The record a successful `create` call appends (questionIndex 0, empty
results, PAUSED iff auto-start, everything else from the arguments). -/
def createProcessRecord (sender : Address) (mode envelopeType : Nat)
    (metadata merkleRoot merkleTree : String)
    (startBlock blockCount questionCount maxValue : Nat) (uniqueValues : Bool)
    (maxTotalCost costExponent maxVoteOverwrites : Nat)
    (paramsSignature : Nat) (nspace : Nat) : Process :=
  { mode := mode, envelopeType := envelopeType, entityAddress := sender,
    startBlock := startBlock, blockCount := blockCount, metadata := metadata,
    censusMerkleRoot := merkleRoot, censusMerkleTree := merkleTree,
    status := if mode &&& MODE_AUTO_START ≠ 0 then .PAUSED else .OPEN,
    questionIndex := 0, questionCount := questionCount, maxValue := maxValue,
    uniqueValues := uniqueValues, maxTotalCost := maxTotalCost,
    costExponent := costExponent, maxVoteOverwrites := maxVoteOverwrites,
    paramsSignature := paramsSignature, nspace := nspace, results := "" }

/-! ## Basic lemmas about the embedding -/

theorem arrGet_eq_ok {l : List Process} {i : Nat} {p : Process} :
    arrGet l i = .ok p ↔ l[i]? = some p := by
  unfold arrGet
  cases h : l[i]? <;> simp

theorem statusOfNat_isSome {n : Nat} (h : n ≤ 3) : ∃ st, statusOfNat n = some st := by
  interval_cases n <;> exact ⟨_, rfl⟩

theorem statusTransitionCheck_ok_iff {current : Status} {ns : Nat} (hns : ns ≤ 3) :
    statusTransitionCheck current ns = .ok () ↔ specStatusTransition current ns := by
  interval_cases ns <;> cases current <;> decide

/-- Inversion of a successful `setStatus` call. -/
theorem setStatus_ok_cases {s : ContractState} {sender : Address} {pid : ProcessId}
    {ns : Nat} {s' : ContractState} (h : setStatus s sender pid ns = .ok s') :
    ∃ entry st, arrGet s.processes (getProcessIndex s pid) = .ok entry ∧
      entry.entityAddress = sender ∧ ns ≤ 3 ∧
      entry.mode &&& MODE_INTERRUPTIBLE ≠ 0 ∧
      statusTransitionCheck entry.status ns = .ok () ∧
      statusOfNat ns = some st ∧
      s' = setProcess s (getProcessIndex s pid) { entry with status := st } := by
  unfold setStatus at h
  split at h
  · cases h
  · rename_i entry harr
    split_ifs at h with h1 h2 h3
    push_neg at h2
    split at h
    · cases h
    · rename_i u htr
      split at h
      · cases h
      · rename_i st hst
        cases h
        exact ⟨entry, st, harr, not_not.mp (by exact fun hc => h1 hc), h2.2, h3, by
          cases u; exact htr, hst, rfl⟩

/-- Claim C1: `setStatus` succeeds iff the caller is the creating entity, the
mode has the interruptible flag, the requested code is one of the four status
codes, and the (current, requested) pair is in the spec's transition table;
on success only the `status` field of that record changes (all other storage
is untouched). Rejections leave the state unchanged by construction of the
`Except`-based model. -/
theorem setStatus_spec (s : ContractState) (sender : Address) (pid : ProcessId)
    (ns : Nat) (entry : Process)
    (hentry : arrGet s.processes (getProcessIndex s pid) = .ok entry) :
    ((∃ s', setStatus s sender pid ns = .ok s') ↔
      (sender = entry.entityAddress ∧ entry.mode &&& MODE_INTERRUPTIBLE ≠ 0 ∧
        ns ≤ statusToNat .PAUSED ∧ specStatusTransition entry.status ns)) ∧
    (∀ s', setStatus s sender pid ns = .ok s' →
      ∃ st, statusOfNat ns = some st ∧
        s'.processes = s.processes.set (getProcessIndex s pid) { entry with status := st } ∧
        s'.processesIndex = s.processesIndex ∧
        s'.entityProcessCount = s.entityProcessCount ∧
        s'.contractOwner = s.contractOwner ∧ s'.validators = s.validators ∧
        s'.oracles = s.oracles ∧ s'.genesis = s.genesis ∧ s'.chainId = s.chainId) := by
  constructor
  · constructor
    · rintro ⟨s', hs'⟩
      obtain ⟨entry', st, harr', hsender, hns, hmode, htr, hst, _⟩ := setStatus_ok_cases hs'
      rw [hentry] at harr'
      cases harr'
      exact ⟨hsender.symm, hmode, hns, (statusTransitionCheck_ok_iff hns).mp htr⟩
    · rintro ⟨hsender, hmode, hns, htr⟩
      obtain ⟨st, hst⟩ := statusOfNat_isSome hns
      refine ⟨setProcess s (getProcessIndex s pid) { entry with status := st }, ?_⟩
      have hrange : statusToNat Status.OPEN ≤ ns ∧ ns ≤ statusToNat Status.PAUSED :=
        ⟨Nat.zero_le ns, hns⟩
      simp only [setStatus, hentry, if_neg (not_not_intro hrange), if_neg hmode,
        (statusTransitionCheck_ok_iff hns).mpr htr, hst,
        if_neg (not_not_intro hsender.symm)]
      rfl
  · intro s' hs'
    obtain ⟨entry', st, harr', hsender, hns, hmode, htr, hst, hupd⟩ := setStatus_ok_cases hs'
    rw [hentry] at harr'
    cases harr'
    exact ⟨st, hst, by rw [hupd]; rfl, by rw [hupd]; rfl, by rw [hupd]; rfl, by rw [hupd]; rfl, by rw [hupd]; rfl,
      by rw [hupd]; rfl, by rw [hupd]; rfl, by rw [hupd]; rfl⟩

/-- Witness for C1: entity 5 successfully pauses its OPEN, interruptible
process in the concrete storage `exStateA`. -/
theorem setStatus_spec_witness :
    ∃ s', setStatus exStateA 5 exPidA (statusToNat .PAUSED) = .ok s' :=
  (setStatus_spec exStateA 5 exPidA (statusToNat .PAUSED) exProcA (by decide)).1.mpr
    (by decide)

/-- Inversion of a successful `setCensus` call. -/
theorem setCensus_ok_cases {s : ContractState} {sender : Address} {pid : ProcessId}
    {root tree : String} {s' : ContractState}
    (h : setCensus s sender pid root tree = .ok s') :
    ∃ entry, arrGet s.processes (getProcessIndex s pid) = .ok entry ∧
      entry.entityAddress = sender ∧ 0 < root.length ∧ 0 < tree.length ∧
      (entry.status = .OPEN ∨ entry.status = .PAUSED) ∧
      entry.mode &&& MODE_DYNAMIC_CENSUS ≠ 0 ∧
      s' = setProcess s (getProcessIndex s pid)
        { entry with censusMerkleRoot := root, censusMerkleTree := tree } := by
  unfold setCensus at h
  split at h
  · cases h
  · rename_i entry harr
    split_ifs at h with h1 h2 h3 h4 h5
    push_neg at h1 h2 h3 h4
    cases h
    exact ⟨entry, harr, h1, h2, h3, h4, h5, rfl⟩

/-- Claim C6: `setCensus` succeeds iff the caller is the creating entity, the
status is OPEN or PAUSED, the mode has the dynamic-census flag, and both the
supplied censusRoot and censusUri are non-empty; on success both census
fields are written together in that one call and every other field of the
record (and all other storage) is unchanged. -/
theorem setCensus_spec (s : ContractState) (sender : Address) (pid : ProcessId)
    (root tree : String) (entry : Process)
    (hentry : arrGet s.processes (getProcessIndex s pid) = .ok entry) :
    ((∃ s', setCensus s sender pid root tree = .ok s') ↔
      (sender = entry.entityAddress ∧ (entry.status = .OPEN ∨ entry.status = .PAUSED) ∧
        entry.mode &&& MODE_DYNAMIC_CENSUS ≠ 0 ∧ 0 < root.length ∧ 0 < tree.length)) ∧
    (∀ s', setCensus s sender pid root tree = .ok s' →
      s'.processes = s.processes.set (getProcessIndex s pid)
        { entry with censusMerkleRoot := root, censusMerkleTree := tree } ∧
      s'.processesIndex = s.processesIndex ∧
      s'.entityProcessCount = s.entityProcessCount ∧
      s'.contractOwner = s.contractOwner ∧ s'.validators = s.validators ∧
      s'.oracles = s.oracles ∧ s'.genesis = s.genesis ∧ s'.chainId = s.chainId) := by
  constructor
  · constructor
    · rintro ⟨s', hs'⟩
      obtain ⟨entry', harr', h1, h2, h3, h4, h5, _⟩ := setCensus_ok_cases hs'
      rw [hentry] at harr'
      cases harr'
      exact ⟨h1.symm, h4, h5, h2, h3⟩
    · rintro ⟨h1, h2, h3, h4, h5⟩
      refine ⟨setProcess s (getProcessIndex s pid)
        { entry with censusMerkleRoot := root, censusMerkleTree := tree }, ?_⟩
      simp only [setCensus, hentry, if_neg (not_not_intro h1.symm),
        if_neg (not_not_intro h4), if_neg (not_not_intro h5),
        if_neg (not_not_intro h2), if_neg h3]
      rfl
  · intro s' hs'
    obtain ⟨entry', harr', h1, h2, h3, h4, h5, hupd⟩ := setCensus_ok_cases hs'
    rw [hentry] at harr'
    cases harr'
    exact ⟨by rw [hupd]; rfl, by rw [hupd]; rfl, by rw [hupd]; rfl, by rw [hupd]; rfl, by rw [hupd]; rfl,
      by rw [hupd]; rfl, by rw [hupd]; rfl, by rw [hupd]; rfl⟩

/-- Witness for C6: entity 5 updates both census fields of its OPEN,
dynamic-census process in `exStateA`. -/
theorem setCensus_spec_witness :
    ∃ s', setCensus exStateA 5 exPidA "root2" "tree2" = .ok s' :=
  (setCensus_spec exStateA 5 exPidA "root2" "tree2" exProcA (by decide)).1.mpr
    (by decide)

/-- Inversion of a successful `setResults` call. -/
theorem setResults_ok_cases {s : ContractState} {sender : Address} {pid : ProcessId}
    {results : String} {s' : ContractState}
    (h : setResults s sender pid results = .ok s') :
    ∃ entry, isOracle s sender = true ∧ 0 < results.length ∧
      0 < getProcessIndex s pid ∧
      arrGet s.processes (getProcessIndex s pid) = .ok entry ∧
      entry.entityAddress ≠ 0 ∧ entry.status ≠ .CANCELED ∧ entry.results.length = 0 ∧
      s' = setProcess s (getProcessIndex s pid) { entry with results := results } := by
  unfold setResults at h
  split_ifs at h with h1 h2 h3
  push_neg at h1 h2 h3
  split at h
  · cases h
  · rename_i entry harr
    split_ifs at h with h4 h5 h6
    push_neg at h6
    cases h
    exact ⟨entry, by simpa using h1, h2, h3, harr, h4, h5, h6, rfl⟩

/-- Claim C3: `setResults` succeeds iff the caller is in the oracle set, the
supplied results string is non-empty, the processId resolves to a real
record (index > 0 with a non-zero entity address), the status is not
CANCELED, and the stored results are still empty.  On success the results
field of that record becomes the supplied string, and afterwards every
further `setResults` on the same process (any caller, any value) is
rejected, with `getResults` still returning the first published value. -/
theorem setResults_spec (s : ContractState) (sender : Address) (pid : ProcessId)
    (results : String) (entry : Process)
    (hentry : arrGet s.processes (getProcessIndex s pid) = .ok entry) :
    ((∃ s', setResults s sender pid results = .ok s') ↔
      (isOracle s sender = true ∧ 0 < results.length ∧ 0 < getProcessIndex s pid ∧
        entry.entityAddress ≠ 0 ∧ entry.status ≠ .CANCELED ∧ entry.results.length = 0)) ∧
    (∀ s', setResults s sender pid results = .ok s' →
      s'.processes = s.processes.set (getProcessIndex s pid)
        { entry with results := results } ∧
      s'.processesIndex = s.processesIndex ∧
      s'.entityProcessCount = s.entityProcessCount ∧
      getResults s' pid = .ok results ∧
      ∀ sender2 results2, ¬ ∃ s'', setResults s' sender2 pid results2 = .ok s'') := by
  have hsome := arrGet_eq_ok.mp hentry
  have hlt : getProcessIndex s pid < s.processes.length :=
    (List.getElem?_eq_some.mp hsome).1
  constructor
  · constructor
    · rintro ⟨s', hs'⟩
      obtain ⟨entry', h1, h2, h3, harr', h4, h5, h6, _⟩ := setResults_ok_cases hs'
      rw [hentry] at harr'
      cases harr'
      exact ⟨h1, h2, h3, h4, h5, h6⟩
    · rintro ⟨h1, h2, h3, h4, h5, h6⟩
      refine ⟨setProcess s (getProcessIndex s pid) { entry with results := results }, ?_⟩
      simp only [setResults, h1, if_neg (not_not_intro h2), if_neg (not_not_intro h3),
        hentry, if_neg h4, if_neg h5, if_neg (not_not_intro h6)]
      simp [setProcess]
  · intro s' hs'
    obtain ⟨entry', h1, h2, h3, harr', h4, h5, h6, hupd⟩ := setResults_ok_cases hs'
    rw [hentry] at harr'
    cases harr'
    have hidx' : getProcessIndex s' pid = getProcessIndex s pid := by rw [hupd]; rfl
    have hproc' : s'.processes[getProcessIndex s pid]? =
        some { entry with results := results } := by
      simp only [hupd, setProcess]
      exact List.getElem?_set_self hlt
    have harrok : arrGet s'.processes (getProcessIndex s pid) =
        .ok { entry with results := results } := arrGet_eq_ok.mpr hproc'
    refine ⟨by rw [hupd]; rfl, by rw [hupd]; rfl, by rw [hupd]; rfl, ?_, ?_⟩
    · unfold getResults
      rw [hidx']
      simp only [if_neg (not_not_intro h3), harrok]
    · rintro sender2 results2 ⟨s'', hs''⟩
      obtain ⟨entry'', _, hr2, _, harr'', _, _, hempty, _⟩ := setResults_ok_cases hs''
      rw [hidx', harrok] at harr''
      cases harr''
      simp at hempty
      rw [hempty] at h2
      exact Nat.lt_irrefl 0 h2

/-- Witness for C3: oracle 9 publishes "res" on the real process of
`exStateA`. -/
theorem setResults_spec_witness :
    ∃ s', setResults exStateA 9 exPidA "res" = .ok s' :=
  (setResults_spec exStateA 9 exPidA "res" exProcA (by decide)).1.mpr (by decide)

/-- Claim C2, counterexample: `exStateB` holds a process meeting all the
claim's premises — caller 5 is the creating entity, status OPEN, envelope
type has the serial flag, and the incremented index (1) is not below
`questionCount` (1) — yet `incrementQuestionIndex` does not force ENDED:
because the mode lacks the interruptible flag, the delegated
`setStatus(..., ENDED)` reverts the whole call. -/
theorem incrementQuestionIndex_counterexample :
    (arrGet exStateB.processes (getProcessIndex exStateB exPidA) = .ok exProcB ∧
      exProcB.entityAddress = 5 ∧ exProcB.status = .OPEN ∧
      exProcB.envelopeType &&& ENV_TYPE_SERIAL ≠ 0 ∧
      ¬ (exProcB.questionIndex + 1 < exProcB.questionCount)) ∧
    incrementQuestionIndex exStateB 5 exPidA = .error "Process not interruptible" := by
  constructor
  · exact ⟨by decide, by decide, by decide, by decide, by decide⟩
  · rfl

/-- Claim C2, amended: for a process whose caller is the creating entity,
whose status is OPEN or PAUSED and whose envelope type has the serial flag
(with the incremented index inside the uint8 range), `incrementQuestionIndex`
advances `questionIndex` by exactly 1 when the new index is still below
`questionCount`; otherwise it leaves `questionIndex` unchanged and forces
the process into ENDED **provided the mode has the interruptible flag** —
when the mode is not interruptible the overflow call is rejected
("Process not interruptible") with no state change. -/
theorem incrementQuestionIndex_spec (s : ContractState) (sender : Address)
    (pid : ProcessId) (entry : Process)
    (hentry : arrGet s.processes (getProcessIndex s pid) = .ok entry)
    (hsender : sender = entry.entityAddress)
    (hactive : entry.status = .OPEN ∨ entry.status = .PAUSED)
    (hserial : entry.envelopeType &&& ENV_TYPE_SERIAL ≠ 0)
    (hrange : entry.questionIndex + 1 ≤ 255) :
    (entry.questionIndex + 1 < entry.questionCount →
      incrementQuestionIndex s sender pid = .ok (setProcess s (getProcessIndex s pid)
        { entry with questionIndex := entry.questionIndex + 1 })) ∧
    (¬ (entry.questionIndex + 1 < entry.questionCount) →
      entry.mode &&& MODE_INTERRUPTIBLE ≠ 0 →
      incrementQuestionIndex s sender pid = .ok (setProcess s (getProcessIndex s pid)
        { entry with status := .ENDED })) ∧
    (¬ (entry.questionIndex + 1 < entry.questionCount) →
      entry.mode &&& MODE_INTERRUPTIBLE = 0 →
      incrementQuestionIndex s sender pid = .error "Process not interruptible") := by
  have hadd : add8 entry.questionIndex 1 = .ok (entry.questionIndex + 1) := by
    unfold add8
    rw [if_pos hrange]
  have htr : statusTransitionCheck entry.status (statusToNat .ENDED) = .ok () := by
    rcases hactive with h | h <;> rw [h] <;> rfl
  refine ⟨?_, ?_, ?_⟩
  · intro hlt
    simp only [incrementQuestionIndex, hentry, if_neg (not_not_intro hsender.symm),
      if_neg (not_not_intro hactive), if_neg hserial, hadd, if_pos hlt]
    rfl
  · intro hge hmode
    simp only [incrementQuestionIndex, hentry, if_neg (not_not_intro hsender.symm),
      if_neg (not_not_intro hactive), if_neg hserial, hadd, if_neg hge]
    simp only [setStatus, hentry, if_neg (not_not_intro hsender.symm), if_neg hmode, htr]
    have hrange2 : statusToNat Status.OPEN ≤ statusToNat Status.ENDED ∧
        statusToNat Status.ENDED ≤ statusToNat Status.PAUSED := by decide
    rw [if_neg (not_not_intro hrange2)]
    rfl
  · intro hge hmode
    simp only [incrementQuestionIndex, hentry, if_neg (not_not_intro hsender.symm),
      if_neg (not_not_intro hactive), if_neg hserial, hadd, if_neg hge]
    simp only [setStatus, hentry, if_neg (not_not_intro hsender.symm)]
    have hrange2 : statusToNat Status.OPEN ≤ statusToNat Status.ENDED ∧
        statusToNat Status.ENDED ≤ statusToNat Status.PAUSED := by decide
    rw [if_neg (not_not_intro hrange2), if_pos hmode]

/-- Witness for the amended C2: in `exStateA` (serial, interruptible, two
questions, index 0) the increment advances the index. -/
theorem incrementQuestionIndex_spec_witness :
    ∃ s', incrementQuestionIndex exStateA 5 exPidA = .ok s' :=
  ⟨_, (incrementQuestionIndex_spec exStateA 5 exPidA exProcA (by decide) (by decide)
    (by decide) (by decide) (by decide)).1 (by decide)⟩

/-- Claim C8: `setGenesis` and `setChainId` succeed exactly when the caller is
the registry owner and the new value differs from the stored one; any
non-owner call to `setGenesis`/`setChainId`/`addValidator`/`addOracle` is
rejected with the authorization reason "Only contract owner". -/
theorem ownerConfig_spec (s : ContractState) (sender : Address) :
    (∀ v, (∃ s', setGenesis s sender v = .ok s') ↔
      (sender = s.contractOwner ∧ s.genesis ≠ v)) ∧
    (∀ n, (∃ s', setChainId s sender n = .ok s') ↔
      (sender = s.contractOwner ∧ s.chainId ≠ n)) ∧
    (sender ≠ s.contractOwner →
      (∀ v, setGenesis s sender v = .error "Only contract owner") ∧
      (∀ n, setChainId s sender n = .error "Only contract owner") ∧
      (∀ v, addValidator s sender v = .error "Only contract owner") ∧
      (∀ a, addOracle s sender a = .error "Only contract owner")) := by
  refine ⟨?_, ?_, ?_⟩
  · intro v
    constructor
    · rintro ⟨s', hs'⟩
      unfold setGenesis at hs'
      split_ifs at hs' with h1 h2
      push_neg at h1
      simp only [equalStrings, beq_iff_eq] at h2
      exact ⟨h1, h2⟩
    · rintro ⟨h1, h2⟩
      have hb : ¬ (equalStrings s.genesis v = true) := by
        simp only [equalStrings, beq_iff_eq]
        exact h2
      refine ⟨{ s with genesis := v }, ?_⟩
      unfold setGenesis
      rw [if_neg (not_not_intro h1), if_neg hb]
  · intro n
    constructor
    · rintro ⟨s', hs'⟩
      unfold setChainId at hs'
      split_ifs at hs' with h1 h2
      push_neg at h1
      exact ⟨h1, h2⟩
    · rintro ⟨h1, h2⟩
      refine ⟨{ s with chainId := n }, ?_⟩
      unfold setChainId
      rw [if_neg (not_not_intro h1), if_neg h2]
  · intro h
    refine ⟨?_, ?_, ?_, ?_⟩
    · intro v
      unfold setGenesis
      rw [if_pos h]
    · intro n
      unfold setChainId
      rw [if_pos h]
    · intro v
      unfold addValidator
      rw [if_pos h]
    · intro a
      unfold addOracle
      rw [if_pos h]

/-- Witness for C8: the owner (address 7) of `exStateA` changes the genesis
value from "" to "g". -/
theorem ownerConfig_spec_witness :
    ∃ s', setGenesis exStateA 7 "g" = .ok s' :=
  ((ownerConfig_spec exStateA 7).1 "g").mpr (by decide)

/-- Claim C7: for the oracle and validator collections, `add` succeeds exactly
when the caller is the owner and the value is not already present (identity
match by linear scan), appending it; `remove` succeeds exactly when the
caller is the owner and the element stored at the supplied index equals the
supplied value, and then replaces that slot with the last element and drops
the last slot (swap-with-last removal). -/
theorem validatorOracle_spec (s : ContractState) (sender : Address) :
    (∀ a, (∃ s', addOracle s sender a = .ok s') ↔
      (sender = s.contractOwner ∧ isOracle s a = false)) ∧
    (∀ a s', addOracle s sender a = .ok s' → s'.oracles = s.oracles ++ [a]) ∧
    (∀ idx a, (∃ s', removeOracle s sender idx a = .ok s') ↔
      (sender = s.contractOwner ∧ idx < s.oracles.length ∧ s.oracles[idx]? = some a)) ∧
    (∀ idx a s', removeOracle s sender idx a = .ok s' →
      ∃ last, s.oracles.getLast? = some last ∧
        s'.oracles = (s.oracles.set idx last).dropLast) ∧
    (∀ v, (∃ s', addValidator s sender v = .ok s') ↔
      (sender = s.contractOwner ∧ isValidator s v = false)) ∧
    (∀ v s', addValidator s sender v = .ok s' → s'.validators = s.validators ++ [v]) ∧
    (∀ idx v, (∃ s', removeValidator s sender idx v = .ok s') ↔
      (sender = s.contractOwner ∧ s.validators[idx]? = some v)) ∧
    (∀ idx v s', removeValidator s sender idx v = .ok s' →
      ∃ last, s.validators.getLast? = some last ∧
        s'.validators = (s.validators.set idx last).dropLast) := by
  refine ⟨?_, ?_, ?_, ?_, ?_, ?_, ?_, ?_⟩
  · intro a
    constructor
    · rintro ⟨s', hs'⟩
      unfold addOracle at hs'
      split_ifs at hs' with h1 h2
      push_neg at h1
      exact ⟨h1, by simpa using h2⟩
    · rintro ⟨h1, h2⟩
      refine ⟨{ s with oracles := s.oracles ++ [a] }, ?_⟩
      unfold addOracle
      rw [if_neg (not_not_intro h1), if_neg (by simp [h2])]
  · intro a s' hs'
    unfold addOracle at hs'
    split_ifs at hs' with h1 h2
    cases hs'
    rfl
  · intro idx a
    constructor
    · rintro ⟨s', hs'⟩
      unfold removeOracle at hs'
      split_ifs at hs' with h1 h2
      push_neg at h1 h2
      split at hs'
      · cases hs'
      · rename_i o ho
        split_ifs at hs' with h3
        push_neg at h3
        exact ⟨h1, h2, by rw [ho, h3]⟩
    · rintro ⟨h1, h2, h3⟩
      have hlast : ∃ last, s.oracles.getLast? = some last := by
        rw [List.getLast?_eq_getElem?]
        exact ⟨_, List.getElem?_eq_getElem (by omega)⟩
      obtain ⟨last, hlast⟩ := hlast
      refine ⟨{ s with oracles := (s.oracles.set idx last).dropLast }, ?_⟩
      unfold removeOracle
      rw [if_neg (not_not_intro h1), if_neg (not_not_intro h2), h3]
      simp [hlast]
  · intro idx a s' hs'
    unfold removeOracle at hs'
    split_ifs at hs' with h1 h2
    split at hs'
    · cases hs'
    · rename_i o ho
      split_ifs at hs' with h3
      split at hs'
      · cases hs'
      · rename_i last hlast
        cases hs'
        exact ⟨last, hlast, rfl⟩
  · intro v
    constructor
    · rintro ⟨s', hs'⟩
      unfold addValidator at hs'
      split_ifs at hs' with h1 h2
      push_neg at h1
      exact ⟨h1, by simpa using h2⟩
    · rintro ⟨h1, h2⟩
      refine ⟨{ s with validators := s.validators ++ [v] }, ?_⟩
      unfold addValidator
      rw [if_neg (not_not_intro h1), if_neg (by simp [h2])]
  · intro v s' hs'
    unfold addValidator at hs'
    split_ifs at hs' with h1 h2
    cases hs'
    rfl
  · intro idx v
    constructor
    · rintro ⟨s', hs'⟩
      unfold removeValidator at hs'
      split_ifs at hs' with h1
      push_neg at h1
      split at hs'
      · cases hs'
      · rename_i w hw
        split_ifs at hs' with h3
        push_neg at h3
        simp only [equalStrings, beq_iff_eq] at h3
        exact ⟨h1, by rw [hw, h3]⟩
    · rintro ⟨h1, h2⟩
      have hidx : idx < s.validators.length := (List.getElem?_eq_some.mp h2).1
      have hlast : ∃ last, s.validators.getLast? = some last := by
        rw [List.getLast?_eq_getElem?]
        exact ⟨_, List.getElem?_eq_getElem (by omega)⟩
      obtain ⟨last, hlast⟩ := hlast
      refine ⟨{ s with validators := (s.validators.set idx last).dropLast }, ?_⟩
      unfold removeValidator
      rw [if_neg (not_not_intro h1), h2]
      simp [equalStrings, hlast]
  · intro idx v s' hs'
    unfold removeValidator at hs'
    split_ifs at hs' with h1
    split at hs'
    · cases hs'
    · rename_i w hw
      split_ifs at hs' with h3
      split at hs'
      · cases hs'
      · rename_i last hlast
        cases hs'
        exact ⟨last, hlast, rfl⟩

/-- Witness for C7: in `exStateC` the owner removes oracle 22 at index 1
from [11, 22, 33]. -/
theorem validatorOracle_spec_witness :
    ∃ s', removeOracle exStateC 7 1 22 = .ok s' :=
  ((validatorOracle_spec exStateC 7).2.2.1 1 22).mpr (by decide)

/-- Inversion of a successful `create` call. -/
theorem create_ok_cases {s : ContractState} {sender : Address} {mode envT : Nat}
    {md mr mt : String} {sb bc qc mv : Nat} {uv : Bool} {mtc ce mvo : Nat}
    {ps nsp : Nat} {s' : ContractState}
    (h : create s sender mode envT md mr mt sb bc qc mv uv mtc ce mvo ps nsp = .ok s') :
    0 < md.length ∧ 0 < mr.length ∧ 0 < mt.length ∧ 0 < qc ∧ 0 < mv ∧
    (mode &&& MODE_AUTO_START ≠ 0 → 0 < sb) ∧
    s'.contractOwner = s.contractOwner ∧ s'.validators = s.validators ∧
    s'.oracles = s.oracles ∧ s'.genesis = s.genesis ∧ s'.chainId = s.chainId ∧
    s'.processes = s.processes ++
      [createProcessRecord sender mode envT md mr mt sb bc qc mv uv mtc ce mvo ps nsp] ∧
    s'.processesIndex = (fun pid => if pid = getNextProcessId s sender
      then s.processes.length else s.processesIndex pid) ∧
    s'.entityProcessCount = (fun a => if a = sender
      then s.entityProcessCount a + 1 else s.entityProcessCount a) := by
  unfold create at h
  split_ifs at h with h1 h2 h3 h4 h5 h6 h7 <;> cases h <;> push_neg at h6 <;>
    refine ⟨h1, h2, h3, h4, h5, h6, rfl, rfl, rfl, rfl, rfl, ?_, rfl, rfl⟩ <;>
    unfold createProcessRecord <;>
    first
      | rw [if_pos h7]
      | rw [if_neg h7]

/-- Claim C4: `create` succeeds iff metadata, censusRoot and censusUri are
non-empty, questionCount and maxValue are positive, and startBlock is
positive whenever the auto-start flag is set.  On success the new record is
PAUSED iff auto-start is set (OPEN otherwise), has questionIndex 0 and empty
results, is appended at index `s.processes.length`, the caller's
entityProcessCount grows by exactly 1 (no other entry changes), and the
record is registered under `getNextProcessId` — the identifier derived from
the entity address and the pre-create count. -/
theorem create_spec (s : ContractState) (sender : Address) (mode envT : Nat)
    (md mr mt : String) (sb bc qc mv : Nat) (uv : Bool) (mtc ce mvo : Nat)
    (ps nsp : Nat) :
    ((∃ s', create s sender mode envT md mr mt sb bc qc mv uv mtc ce mvo ps nsp = .ok s') ↔
      (0 < md.length ∧ 0 < mr.length ∧ 0 < mt.length ∧ 0 < qc ∧ 0 < mv ∧
        (mode &&& MODE_AUTO_START ≠ 0 → 0 < sb))) ∧
    (∀ s', create s sender mode envT md mr mt sb bc qc mv uv mtc ce mvo ps nsp = .ok s' →
      s'.entityProcessCount sender = s.entityProcessCount sender + 1 ∧
      (∀ a, a ≠ sender → s'.entityProcessCount a = s.entityProcessCount a) ∧
      s'.processesIndex (getNextProcessId s sender) = s.processes.length ∧
      (∀ pid, pid ≠ getNextProcessId s sender →
        s'.processesIndex pid = s.processesIndex pid) ∧
      ∃ p, s'.processes = s.processes ++ [p] ∧
        s'.processes[s.processes.length]? = some p ∧
        p.status = (if mode &&& MODE_AUTO_START ≠ 0 then Status.PAUSED else Status.OPEN) ∧
        p.questionIndex = 0 ∧ p.results = "" ∧ p.entityAddress = sender ∧
        p.metadata = md ∧ p.censusMerkleRoot = mr ∧ p.censusMerkleTree = mt ∧
        p.questionCount = qc ∧ p.maxValue = mv) := by
  constructor
  · constructor
    · rintro ⟨s', hs'⟩
      obtain ⟨h1, h2, h3, h4, h5, h6, _⟩ := create_ok_cases hs'
      exact ⟨h1, h2, h3, h4, h5, h6⟩
    · rintro ⟨h1, h2, h3, h4, h5, h6⟩
      cases hc : create s sender mode envT md mr mt sb bc qc mv uv mtc ce mvo ps nsp with
      | ok s' => exact ⟨s', rfl⟩
      | error e =>
        unfold create at hc
        split_ifs at hc with g1
        exact absurd (h6 g1.1) g1.2
  · intro s' hs'
    obtain ⟨h1, h2, h3, h4, h5, h6, _, _, _, _, _, hproc, hmap, hcount⟩ :=
      create_ok_cases hs'
    refine ⟨?_, ?_, ?_, ?_, ?_⟩
    · rw [hcount]
      simp
    · intro a ha
      rw [hcount]
      simp [ha]
    · rw [hmap]
      simp
    · intro pid hpid
      rw [hmap]
      simp [hpid]
    · refine ⟨createProcessRecord sender mode envT md mr mt sb bc qc mv uv mtc ce mvo
        ps nsp, hproc, ?_, rfl, rfl, rfl, rfl, rfl, rfl, rfl, rfl, rfl⟩
      rw [hproc]
      exact List.getElem?_concat_length s.processes _

/-- Witness for C4: entity 5 creates an auto-start process on a freshly
deployed contract. -/
theorem create_spec_witness :
    ∃ s', create (constructorState 7 1) 5 MODE_AUTO_START 0 "m" "r" "t" 3 10 2 1
      false 0 0 0 0 0 = .ok s' :=
  (create_spec (constructorState 7 1) 5 MODE_AUTO_START 0 "m" "r" "t" 3 10 2 1
    false 0 0 0 0 0).1.mpr (by decide)

/-! ## The storage invariant and its preservation by every call -/

theorem setGenesis_ok_frames {s : ContractState} {sender : Address} {v : String}
    {s' : ContractState} (h : setGenesis s sender v = .ok s') :
    s'.processes = s.processes ∧ s'.processesIndex = s.processesIndex := by
  unfold setGenesis at h
  split_ifs at h <;> cases h <;> exact ⟨rfl, rfl⟩

theorem setChainId_ok_frames {s : ContractState} {sender : Address} {v : Nat}
    {s' : ContractState} (h : setChainId s sender v = .ok s') :
    s'.processes = s.processes ∧ s'.processesIndex = s.processesIndex := by
  unfold setChainId at h
  split_ifs at h <;> cases h <;> exact ⟨rfl, rfl⟩

theorem addValidator_ok_frames {s : ContractState} {sender : Address} {v : String}
    {s' : ContractState} (h : addValidator s sender v = .ok s') :
    s'.processes = s.processes ∧ s'.processesIndex = s.processesIndex := by
  unfold addValidator at h
  split_ifs at h <;> cases h <;> exact ⟨rfl, rfl⟩

theorem addOracle_ok_frames {s : ContractState} {sender : Address} {a : Address}
    {s' : ContractState} (h : addOracle s sender a = .ok s') :
    s'.processes = s.processes ∧ s'.processesIndex = s.processesIndex := by
  unfold addOracle at h
  split_ifs at h <;> cases h <;> exact ⟨rfl, rfl⟩

theorem removeValidator_ok_frames {s : ContractState} {sender : Address} {idx : Nat}
    {v : String} {s' : ContractState} (h : removeValidator s sender idx v = .ok s') :
    s'.processes = s.processes ∧ s'.processesIndex = s.processesIndex := by
  unfold removeValidator at h
  split_ifs at h with h1
  split at h
  · cases h
  · rename_i w hw
    split_ifs at h with h3
    split at h
    · cases h
    · cases h
      exact ⟨rfl, rfl⟩

theorem removeOracle_ok_frames {s : ContractState} {sender : Address} {idx : Nat}
    {a : Address} {s' : ContractState} (h : removeOracle s sender idx a = .ok s') :
    s'.processes = s.processes ∧ s'.processesIndex = s.processesIndex := by
  unfold removeOracle at h
  split_ifs at h with h1 h2
  split at h
  · cases h
  · rename_i o ho
    split_ifs at h with h3
    split at h
    · cases h
    · cases h
      exact ⟨rfl, rfl⟩

/-- Inversion of a successful `incrementQuestionIndex` call: either the
index advanced in place, or the call delegated to `setStatus(..., ENDED)`. -/
theorem incrementQuestionIndex_ok_cases {s : ContractState} {sender : Address}
    {pid : ProcessId} {s' : ContractState}
    (h : incrementQuestionIndex s sender pid = .ok s') :
    ∃ entry, arrGet s.processes (getProcessIndex s pid) = .ok entry ∧
      entry.entityAddress = sender ∧ (entry.status = .OPEN ∨ entry.status = .PAUSED) ∧
      ((entry.questionIndex + 1 < entry.questionCount ∧
        s' = setProcess s (getProcessIndex s pid)
          { entry with questionIndex := entry.questionIndex + 1 }) ∨
        setStatus s sender pid (statusToNat .ENDED) = .ok s') := by
  unfold incrementQuestionIndex at h
  split at h
  · cases h
  · rename_i entry harr
    split_ifs at h with h1 h2 h3
    push_neg at h1 h2
    split at h
    · cases h
    · rename_i nextIdx hadd
      unfold add8 at hadd
      split_ifs at hadd
      cases hadd
      split_ifs at h with h4
      · cases h
        exact ⟨entry, harr, h1, h2, Or.inl ⟨h4, rfl⟩⟩
      · exact ⟨entry, harr, h1, h2, Or.inr h⟩

/-- The invariant is preserved by overwriting a real record (index ≥ 1) as
long as the write keeps `questionIndex < questionCount`. -/
theorem Inv_set {s : ContractState} {idx : Nat} {entry newEntry : Process}
    (hInv : Inv s) (hentry : s.processes[idx]? = some entry) (hidx : idx ≠ 0)
    (hq : newEntry.questionIndex < newEntry.questionCount ∨
      (newEntry.questionIndex = entry.questionIndex ∧
        newEntry.questionCount = entry.questionCount)) :
    Inv (setProcess s idx newEntry) := by
  obtain ⟨hsent, hbound, hqi⟩ := hInv
  have hlt : idx < s.processes.length := (List.getElem?_eq_some.mp hentry).1
  refine ⟨?_, ?_, ?_⟩
  · show (s.processes.set idx newEntry)[0]? = some emptyProcess
    rw [List.getElem?_set_ne hidx]
    exact hsent
  · intro pid
    show getProcessIndex s pid < (s.processes.set idx newEntry).length
    rw [List.length_set]
    exact hbound pid
  · intro i p hp hi
    by_cases hij : idx = i
    · subst hij
      rw [show ((setProcess s idx newEntry).processes = s.processes.set idx newEntry)
        from rfl, List.getElem?_set_self hlt] at hp
      cases hp
      rcases hq with hq | ⟨hq1, hq2⟩
      · exact hq
      · rw [hq1, hq2]
        exact hqi idx entry hentry hi
    · rw [show ((setProcess s idx newEntry).processes = s.processes.set idx newEntry)
        from rfl, List.getElem?_set_ne hij] at hp
      exact hqi i p hp hi

/-- The invariant only depends on the process array and the id map. -/
theorem Inv_of_frames {s s' : ContractState} (hp : s'.processes = s.processes)
    (hm : s'.processesIndex = s.processesIndex) (hInv : Inv s) : Inv s' := by
  obtain ⟨h1, h2, h3⟩ := hInv
  refine ⟨by rw [hp]; exact h1, fun pid => ?_, fun i p hpi hi => ?_⟩
  · show s'.processesIndex pid < s'.processes.length
    rw [hp, hm]
    exact h2 pid
  · rw [hp] at hpi
    exact h3 i p hpi hi

theorem Inv_setStatus {s : ContractState} {sender : Address} {pid : ProcessId}
    {ns : Nat} {s' : ContractState} (hInv : Inv s)
    (h : setStatus s sender pid ns = .ok s') : Inv s' := by
  obtain ⟨entry, st, harr, hsend, hns, hmode, htr, hst, hupd⟩ := setStatus_ok_cases h
  have hentry := arrGet_eq_ok.mp harr
  have hidx : getProcessIndex s pid ≠ 0 := by
    intro h0
    rw [h0, hInv.1] at hentry
    cases hentry
    exact hmode (by decide)
  rw [hupd]
  exact Inv_set hInv hentry hidx (Or.inr ⟨rfl, rfl⟩)

theorem Inv_incrementQuestionIndex {s : ContractState} {sender : Address}
    {pid : ProcessId} {s' : ContractState} (hInv : Inv s)
    (h : incrementQuestionIndex s sender pid = .ok s') : Inv s' := by
  obtain ⟨entry, harr, hsend, hact, hbr⟩ := incrementQuestionIndex_ok_cases h
  rcases hbr with ⟨hlt, hupd⟩ | hss
  · have hentry := arrGet_eq_ok.mp harr
    have hidx : getProcessIndex s pid ≠ 0 := by
      intro h0
      rw [h0, hInv.1] at hentry
      cases hentry
      rcases hact with hc | hc <;> exact absurd hc (by decide)
    rw [hupd]
    exact Inv_set hInv hentry hidx (Or.inl hlt)
  · exact Inv_setStatus hInv hss

theorem Inv_setCensus {s : ContractState} {sender : Address} {pid : ProcessId}
    {root tree : String} {s' : ContractState} (hInv : Inv s)
    (h : setCensus s sender pid root tree = .ok s') : Inv s' := by
  obtain ⟨entry, harr, h1, h2, h3, h4, h5, hupd⟩ := setCensus_ok_cases h
  have hentry := arrGet_eq_ok.mp harr
  have hidx : getProcessIndex s pid ≠ 0 := by
    intro h0
    rw [h0, hInv.1] at hentry
    cases hentry
    rcases h4 with hc | hc <;> exact absurd hc (by decide)
  rw [hupd]
  exact Inv_set hInv hentry hidx (Or.inr ⟨rfl, rfl⟩)

theorem Inv_setResults {s : ContractState} {sender : Address} {pid : ProcessId}
    {res : String} {s' : ContractState} (hInv : Inv s)
    (h : setResults s sender pid res = .ok s') : Inv s' := by
  obtain ⟨entry, h1, h2, h3, harr, h4, h5, h6, hupd⟩ := setResults_ok_cases h
  have hentry := arrGet_eq_ok.mp harr
  have hidx : getProcessIndex s pid ≠ 0 := Nat.pos_iff_ne_zero.mp h3
  rw [hupd]
  exact Inv_set hInv hentry hidx (Or.inr ⟨rfl, rfl⟩)

theorem Inv_create {s : ContractState} {sender : Address} {mode envT : Nat}
    {md mr mt : String} {sb bc qc mv : Nat} {uv : Bool} {mtc ce mvo : Nat}
    {ps nsp : Nat} {s' : ContractState} (hInv : Inv s)
    (h : create s sender mode envT md mr mt sb bc qc mv uv mtc ce mvo ps nsp = .ok s') :
    Inv s' := by
  obtain ⟨h1, h2, h3, h4, h5, h6, _, _, _, _, _, hproc, hmap, hcount⟩ := create_ok_cases h
  obtain ⟨hsent, hbound, hqi⟩ := hInv
  have hpos : 0 < s.processes.length := (List.getElem?_eq_some.mp hsent).1
  refine ⟨?_, ?_, ?_⟩
  · rw [hproc, List.getElem?_append_left hpos]
    exact hsent
  · intro pid
    show s'.processesIndex pid < s'.processes.length
    rw [hmap, hproc, List.length_append, List.length_singleton]
    by_cases hp : pid = getNextProcessId s sender
    · simp only [if_pos hp]
      omega
    · simp only [if_neg hp]
      have := hbound pid
      unfold getProcessIndex at this
      omega
  · intro i p hp hi
    rw [hproc] at hp
    rcases Nat.lt_trichotomy i s.processes.length with hlt | heq | hgt
    · rw [List.getElem?_append_left hlt] at hp
      exact hqi i p hp hi
    · subst heq
      rw [List.getElem?_concat_length] at hp
      cases hp
      show (createProcessRecord sender mode envT md mr mt sb bc qc mv uv mtc ce mvo
        ps nsp).questionIndex <
        (createProcessRecord sender mode envT md mr mt sb bc qc mv uv mtc ce mvo
          ps nsp).questionCount
      simpa [createProcessRecord] using h4
    · rw [List.getElem?_append_right (by omega)] at hp
      rw [List.getElem?_eq_none (by simp; omega)] at hp
      cases hp

/-- Every successful call preserves the invariant. -/
theorem Step_Inv {s s' : ContractState} (hInv : Inv s) (h : Step s s') : Inv s' := by
  cases h with
  | ofSetGenesis h =>
    exact Inv_of_frames (setGenesis_ok_frames h).1 (setGenesis_ok_frames h).2 hInv
  | ofSetChainId h =>
    exact Inv_of_frames (setChainId_ok_frames h).1 (setChainId_ok_frames h).2 hInv
  | ofAddValidator h =>
    exact Inv_of_frames (addValidator_ok_frames h).1 (addValidator_ok_frames h).2 hInv
  | ofRemoveValidator h =>
    exact Inv_of_frames (removeValidator_ok_frames h).1 (removeValidator_ok_frames h).2 hInv
  | ofAddOracle h =>
    exact Inv_of_frames (addOracle_ok_frames h).1 (addOracle_ok_frames h).2 hInv
  | ofRemoveOracle h =>
    exact Inv_of_frames (removeOracle_ok_frames h).1 (removeOracle_ok_frames h).2 hInv
  | ofCreate h => exact Inv_create hInv h
  | ofSetStatus h => exact Inv_setStatus hInv h
  | ofIncrementQuestionIndex h => exact Inv_incrementQuestionIndex hInv h
  | ofSetCensus h => exact Inv_setCensus hInv h
  | ofSetResults h => exact Inv_setResults hInv h

/-- The invariant holds in every reachable storage state. -/
theorem reachable_inv {s : ContractState} (hs : Reachable s) : Inv s := by
  induction hs with
  | init owner cid =>
    refine ⟨rfl, fun pid => ?_, fun i p hp hi => ?_⟩
    · show (0 : Nat) < 1
      decide
    · rw [List.getElem?_eq_none (by simpa using hi)] at hp
      cases hp
  | step hs h ih => exact Step_Inv ih h

/-- Claim C5: in every reachable storage state, index 0 holds the zero-valued
CANCELED sentinel record pushed by the constructor, every id the map knows
resolves to index 0 (not found) or to a real index in [1, length), and
`get`/`getResults` on an id that resolves to index 0 reject with
"Process not found" instead of returning the sentinel or any record. -/
theorem sentinel_spec (s : ContractState) (hs : Reachable s) :
    s.processes[0]? = some emptyProcess ∧
    emptyProcess.status = .CANCELED ∧ emptyProcess.entityAddress = 0 ∧
    (∀ pid, getProcessIndex s pid = 0 ∨
      (1 ≤ getProcessIndex s pid ∧ getProcessIndex s pid < s.processes.length)) ∧
    (∀ pid, getProcessIndex s pid = 0 →
      get s pid = .error "Process not found" ∧
      getResults s pid = .error "Process not found") := by
  obtain ⟨h1, h2, h3⟩ := reachable_inv hs
  refine ⟨h1, rfl, rfl, fun pid => ?_, fun pid hpid => ?_⟩
  · rcases Nat.eq_zero_or_pos (getProcessIndex s pid) with h | h
    · exact Or.inl h
    · exact Or.inr ⟨h, h2 pid⟩
  · constructor
    · unfold get
      rw [hpid]
      simp
    · unfold getResults
      rw [hpid]
      simp

/-- Witness for C5: on a fresh deployment, `get` of an arbitrary id rejects
with "Process not found". -/
theorem sentinel_spec_witness :
    get (constructorState 7 1) ⟨1, 0, "", 1⟩ = .error "Process not found" :=
  ((sentinel_spec (constructorState 7 1) (Reachable.init 7 1)).2.2.2.2
    ⟨1, 0, "", 1⟩ rfl).1

/-- Claim C9: for any reachable state, an id that was never created (it
resolves to index 0) makes the entity-gated mutators `setStatus`,
`incrementQuestionIndex` and `setCensus` reject with the authorization
reason "Invalid entity" (not a not-found error): the lookup lands on the
sentinel record, whose entity address 0 never equals an authenticated
(non-zero) caller. -/
theorem unknownId_rejects_invalid_entity (s : ContractState) (hs : Reachable s)
    (pid : ProcessId) (hpid : getProcessIndex s pid = 0)
    (sender : Address) (hsender : sender ≠ 0) :
    (∀ ns, setStatus s sender pid ns = .error "Invalid entity") ∧
    incrementQuestionIndex s sender pid = .error "Invalid entity" ∧
    (∀ root tree, setCensus s sender pid root tree = .error "Invalid entity") := by
  have h1 := (reachable_inv hs).1
  have harr : arrGet s.processes (getProcessIndex s pid) = .ok emptyProcess := by
    rw [hpid]
    exact arrGet_eq_ok.mpr h1
  have hne : emptyProcess.entityAddress ≠ sender := fun hc => hsender hc.symm
  refine ⟨fun ns => ?_, ?_, fun root tree => ?_⟩
  · simp only [setStatus, harr, if_pos hne]
  · simp only [incrementQuestionIndex, harr, if_pos hne]
  · simp only [setCensus, harr, if_pos hne]

/-- Witness for C9: on a fresh deployment, caller 5 gets "Invalid entity"
from `setStatus` on a never-created id. -/
theorem unknownId_rejects_invalid_entity_witness :
    setStatus (constructorState 7 1) 5 ⟨5, 0, "", 1⟩ 1 = .error "Invalid entity" :=
  (unknownId_rejects_invalid_entity (constructorState 7 1) (Reachable.init 7 1)
    ⟨5, 0, "", 1⟩ rfl 5 (by decide)).1 1

/-- Claim C10: in every reachable storage state, every real record (index ≥ 1)
satisfies `questionIndex < questionCount`: `create` starts at index 0 with a
positive question count, and `incrementQuestionIndex` only writes a new
index when it is still below the count. -/
theorem questionIndex_invariant (s : ContractState) (hs : Reachable s) :
    ∀ i p, s.processes[i]? = some p → 1 ≤ i → p.questionIndex < p.questionCount :=
  (reachable_inv hs).2.2

/-- Witness for C10: the process just created in `exStateD` (index 1) has
`questionIndex < questionCount`. -/
theorem questionIndex_invariant_witness :
    ∃ p, exStateD.processes[1]? = some p ∧ p.questionIndex < p.questionCount := by
  have hc : create (constructorState 7 1) 5 0 1 "m" "r" "t" 0 0 2 1 false 0 0 0 0 0 =
      .ok exStateD := by rfl
  have hreach : Reachable exStateD :=
    Reachable.step (Reachable.init 7 1) (Step.ofCreate hc)
  exact ⟨createProcessRecord 5 0 1 "m" "r" "t" 0 0 2 1 false 0 0 0 0 0, rfl,
    questionIndex_invariant exStateD hreach 1 _ rfl (by decide)⟩

end VotingProcess
